import Mathlib

/-!
Shallow embedding of the tab-management core of the syntia / syntia-term
terminal editor: the editor tab manager (`TabbedTextArea`), the right
preview/terminal panel (`TabbedRightPanel`), and the two draggable
splitters, together with the association-list semantics of the Python
dictionaries the source uses for its `tab_id -> path` mappings.
-/

namespace Syntia

/-! ### Python dict / assoc-list primitives

The source stores its mappings in Python `dict`s (insertion ordered,
unique keys by construction) and scans them with `for k, v in d.items()`
loops.  We embed a dict as an insertion-ordered association list. -/

/-- Python dict lookup: value of the first entry carrying the key. -/
def alistLookup {α : Type} : List (String × α) → String → Option α
  | [], _ => none
  | (k, v) :: rest, key => if k = key then some v else alistLookup rest key

/-- Python `d[k] = v`: replace the value in place when the key exists
(keeping its position), else append a new entry. -/
def alistSet {α : Type} : List (String × α) → String → α → List (String × α)
  | [], k, v => [(k, v)]
  | (k', v') :: rest, k, v =>
    if k' = k then (k, v) :: rest else (k', v') :: alistSet rest k v

/-- Replace the value at a key only when the key is present. -/
def alistUpdate {α : Type} : List (String × α) → String → α → List (String × α)
  | [], _, _ => []
  | (k', v') :: rest, k, v =>
    if k' = k then (k, v) :: rest else (k', v') :: alistUpdate rest k v

/-- Python `del d[k]`: drop the first (in a dict: the unique) entry with the key. -/
def alistErase {α : Type} : List (String × α) → String → List (String × α)
  | [], _ => []
  | (k', v') :: rest, k => if k' = k then rest else (k', v') :: alistErase rest k

/-- The keys of the mapping, in insertion order. -/
def alistKeys {α : Type} (m : List (String × α)) : List String := m.map Prod.fst

/-- The values of the mapping, in insertion order. -/
def alistValues {α : Type} (m : List (String × α)) : List α := m.map Prod.snd

/-- Key of the first entry bound to a given value: the
`for tab_id, existing_path in self.open_files.items(): if existing_path == file_path`
scan both tab managers use to resolve a path to its tab. -/
def firstKeyOf {α : Type} [DecidableEq α] : List (String × α) → α → Option String
  | [], _ => none
  | (k, v) :: rest, p => if v = p then some k else firstKeyOf rest p

/-! ### Path helpers (`pathlib.Path`) -/

/-- Split a character list on a separator character. -/
def splitOnChar : List Char → Char → List (List Char)
  | [], _ => [[]]
  | x :: rest, c =>
    let r := splitOnChar rest c
    if x = c then [] :: r
    else
      match r with
      | [] => [[x]]
      | h :: t => (x :: h) :: t

/-- Last path component: `pathlib.Path(p).name`. -/
def pathName (p : String) : String :=
  String.mk ((splitOnChar p.data '/').getLastD [])

/-- Index of the last occurrence of a character in a list. -/
def lastIdxOf : List Char → Char → Option Nat
  | [], _ => none
  | x :: rest, c =>
    match lastIdxOf rest c with
    | some i => some (i + 1)
    | none => if x = c then some 0 else none

/-- `pathlib.Path(p).suffix`: the final component from its last dot on,
empty when that dot is the first or the last character. -/
def pathSuffix (p : String) : String :=
  let name := pathName p
  match lastIdxOf name.data '.' with
  | some i =>
    if 0 < i ∧ i < name.length - 1 then String.mk (name.data.drop i) else ""
  | none => ""

/-- Python `str.lower()` (the suffixes compared are ASCII). -/
def strLower (s : String) : String := String.mk (s.data.map Char.toLower)

/-! ### The `TabbedContent` collaborator -/

/-- Modelled from the spec: the Textual `TabbedContent` widget both tab
managers delegate pane bookkeeping to (its code is an external framework
collaborator, not part of this repository).  It holds the panes in order
plus the single active-pane pointer (`""`, i.e. `none`, when there is no
active pane). -/
structure TabbedContent where
  panes : List String
  active : Option String
deriving DecidableEq, Repr

/-- Index of a pane id in the pane list (first occurrence). -/
def paneIndex : List String → String → Option Nat
  | [], _ => none
  | x :: rest, id => if x = id then some 0 else (paneIndex rest id).map (· + 1)

/-- Modelled from the spec: `TabbedContent.add_pane` appends the pane;
the first pane added to an empty tab set becomes active. -/
def TabbedContent.addPane (tc : TabbedContent) (id : String) : TabbedContent :=
  { panes := tc.panes ++ [id],
    active := if tc.panes.isEmpty then some id else tc.active }

/-- `TabbedContent.active = id` assignment. -/
def TabbedContent.setActive (tc : TabbedContent) (id : String) : TabbedContent :=
  { tc with active := some id }

/-- Modelled from the spec: `TabbedContent.remove_pane` removes the pane;
when the removed pane was active, a neighboring pane is promoted (the
next pane, else the previous one), and the pointer is cleared when the
set becomes empty. -/
def TabbedContent.removePane (tc : TabbedContent) (id : String) : TabbedContent :=
  match paneIndex tc.panes id with
  | none => tc
  | some i =>
    let ps := tc.panes.eraseIdx i
    { panes := ps,
      active :=
        if tc.active = some id then ps.get? (min i (ps.length - 1)) else tc.active }

/-! ### The disk collaborator -/

/-- The disk I/O collaborator: a path-to-text store plus, per path,
whether a write succeeds (`Path.write_text` raising is a failed write). -/
structure Disk where
  files : List (String × String)
  writeOk : String → Bool

/-- `Path.read_text()`: `none` models the raised exception. -/
def Disk.read (d : Disk) (p : String) : Option String := alistLookup d.files p

/-- `Path.write_text(t)`: `none` models the raised exception, in which
case the store is unchanged. -/
def Disk.write (d : Disk) (p t : String) : Option Disk :=
  if d.writeOk p then some { d with files := alistSet d.files p t } else none

/-! ### `TabbedTextArea` (src/syntia/components/tabbed_text_area.py)

The widget owns `open_files : Dict[str, Path]` (tab id to path) and a
`TabbedContent`; each tab pane holds one `TextArea` whose buffer text we
record in `editors` (the pane-owned widget, destroyed with its pane). -/

structure TabbedTextArea where
  open_files : List (String × String)
  editors : List (String × String)
  content : TabbedContent
deriving DecidableEq, Repr

/-- The freshly constructed (and composed) editor widget: empty mapping,
no panes, no active tab. -/
def TabbedTextArea.init : TabbedTextArea :=
  { open_files := [], editors := [], content := { panes := [], active := none } }

/-- `TabbedTextArea.add_file_tab(file_path)`: if the path already has a
tab, activate and return it; otherwise mint `tab_<len(open_files)>`,
read the file (a failed read degrades to the empty buffer), add the pane
and the mapping entry, and activate the new tab. -/
def TabbedTextArea.add_file_tab (st : TabbedTextArea) (d : Disk) (file_path : String) :
    String × TabbedTextArea :=
  match firstKeyOf st.open_files file_path with
  | some tab_id => (tab_id, { st with content := st.content.setActive tab_id })
  | none =>
    let tab_id := "tab_" ++ toString st.open_files.length
    let text := (d.read file_path).getD ""
    (tab_id,
      { st with
        content := (st.content.addPane tab_id).setActive tab_id,
        open_files := alistSet st.open_files tab_id file_path,
        editors := alistSet st.editors tab_id text })

/-- `TabbedTextArea.get_active_editor()`: the active pane's `TextArea`
buffer, `none` when there is no active tab or no such pane. -/
def TabbedTextArea.get_active_editor (st : TabbedTextArea) : Option String :=
  match st.content.active with
  | none => none
  | some a => if a ∈ st.content.panes then alistLookup st.editors a else none

/-- `TabbedTextArea.get_active_file_path()`. -/
def TabbedTextArea.get_active_file_path (st : TabbedTextArea) : Option String :=
  match st.content.active with
  | none => none
  | some a => alistLookup st.open_files a

/-- `TabbedTextArea.save_active_file()`: write the active buffer's text
to its bound path; `False` when there is no active editor or path or the
write raises.  The widget state is returned unchanged in every case. -/
def TabbedTextArea.save_active_file (st : TabbedTextArea) (d : Disk) :
    Bool × TabbedTextArea × Disk :=
  match st.get_active_editor, st.get_active_file_path with
  | some text, some file_path =>
    match d.write file_path text with
    | some d' => (true, st, d')
    | none => (false, st, d)
  | _, _ => (false, st, d)

/-! ### `TabbedRightPanel` (src/syntia_term/components/tabbed_right_panel.py)

The panel owns `open_files : Dict[str, Path]` (preview tab id to path),
a `TabbedContent`, the optional pinned terminal, and per preview pane a
`MarkdownViewer` whose rendered markdown we record in `viewers`.  The
syntia variant of the panel is this one without the terminal
(`hasTerminal = false`) and without the terminal guards. -/

structure TabbedRightPanel where
  open_files : List (String × String)
  viewers : List (String × String)
  content : TabbedContent
  hasTerminal : Bool
deriving DecidableEq, Repr

/-- `self.terminal_tab_id = "terminal_tab"`. -/
def terminal_tab_id : String := "terminal_tab"

/-- The terminal tab title: the printer emoji (U+1F5A5 U+FE0F, two
Python characters), a space, and the word Terminal — 11 characters. -/
def terminalTitle : String :=
  String.mk [Char.ofNat 0x1F5A5, Char.ofNat 0xFE0F, ' ',
    'T', 'e', 'r', 'm', 'i', 'n', 'a', 'l']

/-- A preview tab title: the open-book emoji (U+1F4D6), a space, and the
file name. -/
def previewTitle (name : String) : String :=
  String.mk (Char.ofNat 0x1F4D6 :: ' ' :: name.data)

/-- The freshly constructed panel (before mounting). -/
def TabbedRightPanel.init (hasTerminal : Bool) : TabbedRightPanel :=
  { open_files := [], viewers := [],
    content := { panes := [], active := none }, hasTerminal := hasTerminal }

/-- `TabbedRightPanel.on_mount()`: when a terminal was supplied, add its
pane first and make it the active tab. -/
def TabbedRightPanel.on_mount (rp : TabbedRightPanel) : TabbedRightPanel :=
  if rp.hasTerminal then
    { rp with content := (rp.content.addPane terminal_tab_id).setActive terminal_tab_id }
  else rp

/-- `TabbedRightPanel.add_markdown_tab(file_path, content)`: if the path
already has a preview tab, update the rendered content in place (when
the pane is found) and activate it; otherwise mint
`preview_tab_<len(open_files)>`, create the viewer, add the pane and the
mapping entry, and activate the new tab. -/
def TabbedRightPanel.add_markdown_tab (rp : TabbedRightPanel)
    (file_path text : String) : String × TabbedRightPanel :=
  match firstKeyOf rp.open_files file_path with
  | some tab_id =>
    let rp' :=
      if tab_id ∈ rp.content.panes then
        { rp with viewers := alistUpdate rp.viewers tab_id text }
      else rp
    (tab_id, { rp' with content := rp'.content.setActive tab_id })
  | none =>
    let tab_id := "preview_tab_" ++ toString rp.open_files.length
    (tab_id,
      { rp with
        viewers := alistSet rp.viewers tab_id text,
        content := (rp.content.addPane tab_id).setActive tab_id,
        open_files := alistSet rp.open_files tab_id file_path })

/-- The scan of `TabbedRightPanel.update_markdown_tab`: the first entry
bound to the path whose pane and viewer are both found is updated; a
matching entry whose pane or viewer is missing is skipped. -/
def updateScan (panes : List String) (viewers : List (String × String))
    (file_path text : String) :
    List (String × String) → Bool × List (String × String)
  | [] => (false, viewers)
  | (tab_id, p) :: rest =>
    if p = file_path ∧ tab_id ∈ panes ∧ (alistLookup viewers tab_id).isSome then
      (true, alistUpdate viewers tab_id text)
    else updateScan panes viewers file_path text rest

/-- `TabbedRightPanel.update_markdown_tab(file_path, content)`: replace
an existing preview tab's rendered content; `False` when no tab for the
path is found. -/
def TabbedRightPanel.update_markdown_tab (rp : TabbedRightPanel)
    (file_path text : String) : Bool × TabbedRightPanel :=
  ((updateScan rp.content.panes rp.viewers file_path text rp.open_files).1,
   { rp with
     viewers := (updateScan rp.content.panes rp.viewers file_path text rp.open_files).2 })

/-- `TabbedRightPanel.remove_markdown_tab(file_path)`: remove the first
preview tab bound to the path (pane, viewer and mapping entry); `False`
when there is none. -/
def TabbedRightPanel.remove_markdown_tab (rp : TabbedRightPanel)
    (file_path : String) : Bool × TabbedRightPanel :=
  match firstKeyOf rp.open_files file_path with
  | some tab_id =>
    (true,
      { rp with
        content := rp.content.removePane tab_id,
        open_files := alistErase rp.open_files tab_id,
        viewers := alistErase rp.viewers tab_id })
  | none => (false, rp)

/-- `TabbedRightPanel.close_active_tab()`: refuse the pinned terminal
tab with a notification; otherwise remove the active tab if it is a
preview tab.  Result: success flag, new state, notifications shown. -/
def TabbedRightPanel.close_active_tab (rp : TabbedRightPanel) :
    Bool × TabbedRightPanel × List String :=
  match rp.content.active with
  | none => (false, rp, [])
  | some tab_id =>
    if tab_id = terminal_tab_id then
      (false, rp, ["Terminal tab cannot be closed"])
    else if tab_id ∈ alistKeys rp.open_files then
      (true,
        { rp with
          content := rp.content.removePane tab_id,
          open_files := alistErase rp.open_files tab_id,
          viewers := alistErase rp.viewers tab_id }, [])
    else (false, rp, [])

/-- `TabbedRightPanel.close_tab_by_id(tab_id)`: refuse the pinned
terminal tab (silently — the mouse handler is expected to notify);
otherwise remove the tab if it is a preview tab. -/
def TabbedRightPanel.close_tab_by_id (rp : TabbedRightPanel) (tab_id : String) :
    Bool × TabbedRightPanel × List String :=
  if tab_id = terminal_tab_id then (false, rp, [])
  else if tab_id ∈ alistKeys rp.open_files then
    (true,
      { rp with
        content := rp.content.removePane tab_id,
        open_files := alistErase rp.open_files tab_id,
        viewers := alistErase rp.viewers tab_id }, [])
  else (false, rp, [])

/-- The owning application's actions the panel can delegate to
(`action_save_file`, `action_toggle_terminal`, `action_quit`,
`action_close_tab`). -/
inductive AppAction where
  | saveFile
  | toggleTerminal
  | quitApp
  | closeEditorTab
deriving DecidableEq, Repr

/-- Outcome of the panel's key handler: the app action delegated to (if
any), the panel state afterwards, the notifications shown, and whether
the event was stopped (`prevent_default` + `stop`). -/
structure KeyOutcome where
  delegated : Option AppAction
  panel : TabbedRightPanel
  notes : List String
  stopped : Bool
deriving DecidableEq, Repr

/-- `TabbedRightPanel.on_key(event)`: `ctrl+s`, `ctrl+t`, `ctrl+q` are
delegated to the app and stopped, in that order; `ctrl+w` is delegated
to the app's close-editor-tab action when the terminal tab is active,
else closes the active panel tab locally, and is stopped; every other
key is left to propagate to the active tab content. -/
def TabbedRightPanel.on_key (rp : TabbedRightPanel) (key : String) : KeyOutcome :=
  if key = "ctrl+s" then ⟨some AppAction.saveFile, rp, [], true⟩
  else if key = "ctrl+t" then ⟨some AppAction.toggleTerminal, rp, [], true⟩
  else if key = "ctrl+q" then ⟨some AppAction.quitApp, rp, [], true⟩
  else if key = "ctrl+w" then
    if rp.content.active = some terminal_tab_id then
      ⟨some AppAction.closeEditorTab, rp, [], true⟩
    else
      let r := rp.close_active_tab
      ⟨none, r.2.1, r.2.2, true⟩
  else ⟨none, rp, [], false⟩

/-! ### Pointer hit-testing on tab titles -/

/-- The cumulative-width scan over the preview tabs: each tab occupies
`len(title) + 4` cells, left to right, starting at `curX`. -/
def tabScan (x : Int) : Int → List (String × String) → Option String
  | _, [] => none
  | curX, (tab_id, p) :: rest =>
    let w : Int := Int.ofNat (previewTitle (pathName p)).length + 4
    if curX ≤ x ∧ x < curX + w then some tab_id
    else tabScan x (curX + w) rest

/-- `TabbedRightPanel._get_tab_at_position(x, y)`: only row 0 holds tab
headers; the terminal tab's fixed-width title region is tested first,
then the preview tabs in insertion order. -/
def TabbedRightPanel.get_tab_at_position (rp : TabbedRightPanel) (x y : Int) :
    Option String :=
  if y = 0 then
    if rp.hasTerminal ∧ 0 ≤ x ∧ x < Int.ofNat terminalTitle.length + 4 then
      some terminal_tab_id
    else
      tabScan x (if rp.hasTerminal then Int.ofNat terminalTitle.length + 4 else 0)
        rp.open_files
  else none

/-- `TabbedRightPanel.on_mouse_down(event)`: a secondary-button press on
a tab header either notifies (terminal tab) or closes the hit preview
tab; result: panel state, notifications, whether the event was handled
(`prevent_default`). -/
def TabbedRightPanel.on_mouse_down (rp : TabbedRightPanel) (button x y : Int) :
    TabbedRightPanel × List String × Bool :=
  if button = 3 ∧ y = 0 then
    match rp.get_tab_at_position x y with
    | some tab_id =>
      if tab_id = terminal_tab_id then
        (rp, ["Terminal tab cannot be closed"], true)
      else ((rp.close_tab_by_id tab_id).2.1, [], true)
    | none => (rp, [], false)
  else (rp, [], false)

/-! ### `TabbedTextArea.close_tab` and the markdown pairing -/

/-- `TabbedTextArea.close_tab(tab_id)`: default to the active tab;
`False` when the id has no open file.  On success remove the pane, the
buffer and the mapping entry, and when the closed path's suffix is
`.md` (case-insensitively) retract the paired preview tab from the
right panel. -/
def TabbedTextArea.close_tab (st : TabbedTextArea) (rp : TabbedRightPanel)
    (tab_id? : Option String) : Bool × TabbedTextArea × TabbedRightPanel :=
  let tid? := match tab_id? with
    | none => st.content.active
    | some t => some t
  match tid? with
  | none => (false, st, rp)
  | some tab_id =>
    match alistLookup st.open_files tab_id with
    | none => (false, st, rp)
    | some file_path =>
      let st' :=
        { st with
          content := st.content.removePane tab_id,
          open_files := alistErase st.open_files tab_id,
          editors := alistErase st.editors tab_id }
      if strLower (pathSuffix file_path) = ".md" then
        (true, st', (rp.remove_markdown_tab file_path).2)
      else (true, st', rp)

/-! ### Splitters (src/syntia_term/components) -/

/-- Per-splitter drag state: `_dragging`, the pointer anchor coordinate
and the adjacent pane's size snapshotted on pointer-down. -/
structure SplitterState where
  dragging : Bool
  startCoord : Int
  startSize : Int
deriving DecidableEq, Repr

/-- The new width `VerticalSplitter.on_mouse_move` applies to the pane
on the left: `max(16, min(parent_width - 10, start_width + delta))`. -/
def verticalNewWidth (s : SplitterState) (parentWidth screenX : Int) : Int :=
  max 16 (min (parentWidth - 10) (s.startSize + (screenX - s.startCoord)))

/-- `VerticalSplitter.on_mouse_move`: no-op unless dragging; else the
clamped new width for the left sibling. -/
def VerticalSplitter.on_mouse_move (s : SplitterState) (parentWidth screenX : Int) :
    Option Int :=
  if s.dragging then some (verticalNewWidth s parentWidth screenX) else none

/-- The new height `HorizontalSplitter.on_mouse_move` applies to the
pane below: `max(5, min(parent_height - 10, start_height - delta))`. -/
def horizontalNewHeight (s : SplitterState) (parentHeight screenY : Int) : Int :=
  max 5 (min (parentHeight - 10) (s.startSize - (screenY - s.startCoord)))

/-- `HorizontalSplitter.on_mouse_move`: no-op unless dragging; else the
clamped new height for the sibling below. -/
def HorizontalSplitter.on_mouse_move (s : SplitterState) (parentHeight screenY : Int) :
    Option Int :=
  if s.dragging then some (horizontalNewHeight s parentHeight screenY) else none

/-- Python list indexing (`children[i]`), negative indices counting from
the end, out of range an error. -/
def pyIndexGet {α : Type} (l : List α) (i : Int) : Option α :=
  if 0 ≤ i then l.get? i.toNat
  else if 0 ≤ Int.ofNat l.length + i then l.get? (Int.ofNat l.length + i).toNat
  else none

/-- `VerticalSplitter._left_widget`: `children[idx - 1]` for the
splitter at index `idx` of its container's child list. -/
def VerticalSplitter.left_widget {α : Type} (children : List α) (idx : Nat) : Option α :=
  pyIndexGet children (Int.ofNat idx - 1)

/-- `HorizontalSplitter._below_widget`: `children[idx + 1]`. -/
def HorizontalSplitter.below_widget {α : Type} (children : List α) (idx : Nat) : Option α :=
  pyIndexGet children (Int.ofNat idx + 1)

/-! ### Lemmas about the dict primitives -/

theorem alistKeys_nil {α : Type} : alistKeys ([] : List (String × α)) = [] := rfl

theorem alistKeys_cons {α : Type} (k : String) (v : α) (m : List (String × α)) :
    alistKeys ((k, v) :: m) = k :: alistKeys m := rfl

theorem alistValues_nil {α : Type} : alistValues ([] : List (String × α)) = [] := rfl

theorem alistValues_cons {α : Type} (k : String) (v : α) (m : List (String × α)) :
    alistValues ((k, v) :: m) = v :: alistValues m := rfl

theorem alistErase_sublist {α : Type} (m : List (String × α)) (k : String) :
    List.Sublist (alistErase m k) m := by
  induction m with
  | nil => simp [alistErase]
  | cons kv rest ih =>
    obtain ⟨k', v'⟩ := kv
    by_cases h : k' = k
    · simp only [alistErase, if_pos h]
      exact List.Sublist.cons (k', v') (List.Sublist.refl rest)
    · simpa [alistErase, h] using List.Sublist.cons₂ (k', v') ih

theorem mem_of_mem_alistErase {α : Type} {m : List (String × α)} {k : String}
    {kv : String × α} (h : kv ∈ alistErase m k) : kv ∈ m :=
  (alistErase_sublist m k).mem h

theorem alistLookup_some_mem {α : Type} {m : List (String × α)} {k : String}
    {v : α} (h : alistLookup m k = some v) : (k, v) ∈ m := by
  induction m with
  | nil => simp [alistLookup] at h
  | cons kv rest ih =>
    obtain ⟨k', v'⟩ := kv
    by_cases hk : k' = k
    · simp [alistLookup, hk] at h
      simp [hk, h]
    · simp [alistLookup, hk] at h
      exact List.mem_cons_of_mem _ (ih h)

theorem alistLookup_eq_none_iff {α : Type} {m : List (String × α)} {k : String} :
    alistLookup m k = none ↔ k ∉ alistKeys m := by
  induction m with
  | nil => simp [alistLookup, alistKeys]
  | cons kv rest ih =>
    obtain ⟨k', v'⟩ := kv
    by_cases hk : k' = k
    · simp [alistLookup, alistKeys, hk]
    · simp [alistLookup, alistKeys, hk, ih, Ne.symm hk]

theorem mem_alistSet {α : Type} {m : List (String × α)} {k : String} {v : α}
    {kv : String × α} (h : kv ∈ alistSet m k v) : kv ∈ m ∨ kv = (k, v) := by
  induction m with
  | nil => simp [alistSet] at h; simp [h]
  | cons kv' rest ih =>
    obtain ⟨k', v'⟩ := kv'
    by_cases hk : k' = k
    · simp [alistSet, hk] at h
      rcases h with h | h
      · exact Or.inr (by simp [h])
      · exact Or.inl (List.mem_cons_of_mem _ h)
    · simp [alistSet, hk] at h
      rcases h with h | h
      · exact Or.inl (by simp [h])
      · rcases ih h with h' | h'
        · exact Or.inl (List.mem_cons_of_mem _ h')
        · exact Or.inr h'

theorem alistSet_fresh {α : Type} {m : List (String × α)} {k : String} (v : α)
    (h : k ∉ alistKeys m) : alistSet m k v = m ++ [(k, v)] := by
  induction m with
  | nil => simp [alistSet]
  | cons kv rest ih =>
    obtain ⟨k', v'⟩ := kv
    rw [alistKeys_cons] at h
    simp only [List.mem_cons, not_or] at h
    simp [alistSet, Ne.symm h.1, ih h.2]

theorem mem_alistKeys_set_self {α : Type} (m : List (String × α)) (k : String)
    (v : α) : k ∈ alistKeys (alistSet m k v) := by
  induction m with
  | nil => simp [alistSet, alistKeys]
  | cons kv rest ih =>
    obtain ⟨k', v'⟩ := kv
    by_cases hk : k' = k
    · simp [alistSet, hk, alistKeys]
    · simp only [alistSet, if_neg hk, alistKeys, List.map_cons, List.mem_cons]
      exact Or.inr ih

theorem alistLookup_set_self {α : Type} (m : List (String × α)) (k : String)
    (v : α) : alistLookup (alistSet m k v) k = some v := by
  induction m with
  | nil => simp [alistSet, alistLookup]
  | cons kv rest ih =>
    obtain ⟨k', v'⟩ := kv
    by_cases hk : k' = k
    · simp [alistSet, hk, alistLookup]
    · simp [alistSet, hk, alistLookup, ih]

theorem alistKeys_update {α : Type} (m : List (String × α)) (k : String)
    (v : α) : alistKeys (alistUpdate m k v) = alistKeys m := by
  induction m with
  | nil => simp [alistUpdate]
  | cons kv rest ih =>
    obtain ⟨k', v'⟩ := kv
    by_cases hk : k' = k
    · simp [alistUpdate, hk, alistKeys]
    · simp [alistUpdate, hk, alistKeys] at ih ⊢
      exact ih

theorem alistLookup_update_self {α : Type} {m : List (String × α)} {k : String}
    (v : α) (h : k ∈ alistKeys m) : alistLookup (alistUpdate m k v) k = some v := by
  induction m with
  | nil => simp [alistKeys] at h
  | cons kv rest ih =>
    obtain ⟨k', v'⟩ := kv
    by_cases hk : k' = k
    · simp [alistUpdate, hk, alistLookup]
    · simp [alistKeys, Ne.symm hk] at h
      simp [alistUpdate, hk, alistLookup, ih (by simpa [alistKeys] using h)]

theorem firstKeyOf_eq_none_iff {α : Type} [DecidableEq α]
    {m : List (String × α)} {p : α} :
    firstKeyOf m p = none ↔ p ∉ alistValues m := by
  induction m with
  | nil => simp [firstKeyOf, alistValues]
  | cons kv rest ih =>
    obtain ⟨k', v'⟩ := kv
    by_cases hv : v' = p
    · simp [firstKeyOf, hv, alistValues]
    · simp [firstKeyOf, hv, alistValues, ih, Ne.symm hv]

theorem firstKeyOf_some_mem {α : Type} [DecidableEq α]
    {m : List (String × α)} {p : α} {k : String}
    (h : firstKeyOf m p = some k) : (k, p) ∈ m := by
  induction m with
  | nil => simp [firstKeyOf] at h
  | cons kv rest ih =>
    obtain ⟨k', v'⟩ := kv
    by_cases hv : v' = p
    · simp [firstKeyOf, hv] at h
      simp [h, hv]
    · simp [firstKeyOf, hv] at h
      exact List.mem_cons_of_mem _ (ih h)

theorem firstKeyOf_set_fresh {α : Type} [DecidableEq α]
    {m : List (String × α)} {p : α} (k : String)
    (h : p ∉ alistValues m) : firstKeyOf (alistSet m k p) p = some k := by
  induction m with
  | nil => simp [alistSet, firstKeyOf]
  | cons kv rest ih =>
    obtain ⟨k', v'⟩ := kv
    rw [alistValues_cons] at h
    simp only [List.mem_cons, not_or] at h
    by_cases hk : k' = k
    · simp [alistSet, hk, firstKeyOf]
    · simp [alistSet, hk, firstKeyOf, Ne.symm h.1, ih h.2]

theorem mem_alistValues_set {α : Type} {m : List (String × α)} {k : String}
    {v x : α} (h : x ∈ alistValues (alistSet m k v)) :
    x ∈ alistValues m ∨ x = v := by
  induction m with
  | nil =>
    rw [show alistSet ([] : List (String × α)) k v = [(k, v)] from rfl,
      show alistValues [(k, v)] = [v] from rfl] at h
    simp only [List.mem_singleton] at h
    exact Or.inr h
  | cons kv rest ih =>
    obtain ⟨k', v'⟩ := kv
    by_cases hk : k' = k
    · rw [show alistSet ((k', v') :: rest) k v = (k, v) :: rest from by
        simp [alistSet, hk], alistValues_cons] at h
      rw [alistValues_cons]
      simp only [List.mem_cons] at h ⊢
      rcases h with h | h
      · exact Or.inr h
      · exact Or.inl (Or.inr h)
    · rw [show alistSet ((k', v') :: rest) k v = (k', v') :: alistSet rest k v from by
        simp [alistSet, hk], alistValues_cons] at h
      rw [alistValues_cons]
      simp only [List.mem_cons] at h ⊢
      rcases h with h | h
      · exact Or.inl (Or.inl h)
      · rcases ih h with h' | h'
        · exact Or.inl (Or.inr h')
        · exact Or.inr h'

theorem alistValues_nodup_set {α : Type} [DecidableEq α]
    {m : List (String × α)} {p : α} (k : String)
    (hnd : (alistValues m).Nodup) (hp : p ∉ alistValues m) :
    (alistValues (alistSet m k p)).Nodup := by
  induction m with
  | nil => simp [alistSet, alistValues]
  | cons kv rest ih =>
    obtain ⟨k', v'⟩ := kv
    rw [alistValues_cons] at hnd hp
    simp only [List.nodup_cons] at hnd
    simp only [List.mem_cons, not_or] at hp
    by_cases hk : k' = k
    · rw [show alistSet ((k', v') :: rest) k p = (k, p) :: rest from by
        simp [alistSet, hk], alistValues_cons]
      simp only [List.nodup_cons]
      exact ⟨hp.2, hnd.2⟩
    · rw [show alistSet ((k', v') :: rest) k p = (k', v') :: alistSet rest k p from by
        simp [alistSet, hk], alistValues_cons]
      simp only [List.nodup_cons]
      refine ⟨fun hx => ?_, ih hnd.2 hp.2⟩
      rcases mem_alistValues_set hx with h' | h'
      · exact hnd.1 h'
      · exact hp.1 h'.symm

theorem alistValues_nodup_erase {α : Type} {m : List (String × α)} (k : String)
    (hnd : (alistValues m).Nodup) : (alistValues (alistErase m k)).Nodup :=
  hnd.sublist ((alistErase_sublist m k).map Prod.snd)

theorem not_mem_values_erase_firstKey {α : Type} [DecidableEq α]
    {m : List (String × α)} {p : α} {k : String}
    (hk : (alistKeys m).Nodup) (hv : (alistValues m).Nodup)
    (h : firstKeyOf m p = some k) : p ∉ alistValues (alistErase m k) := by
  induction m with
  | nil => simp [firstKeyOf] at h
  | cons kv rest ih =>
    obtain ⟨k', v'⟩ := kv
    rw [alistKeys_cons] at hk
    rw [alistValues_cons] at hv
    simp only [List.nodup_cons] at hk hv
    by_cases hvp : v' = p
    · simp only [firstKeyOf, if_pos hvp, Option.some.injEq] at h
      rw [show alistErase ((k', v') :: rest) k = rest from by
        simp [alistErase, h]]
      intro hmem
      exact hv.1 (hvp ▸ hmem)
    · simp only [firstKeyOf, if_neg hvp] at h
      have hkrest : k ∈ alistKeys rest := by
        have := firstKeyOf_some_mem h
        exact List.mem_map_of_mem Prod.fst this
      have hne : k' ≠ k := fun he => hk.1 (he ▸ hkrest)
      rw [show alistErase ((k', v') :: rest) k = (k', v') :: alistErase rest k from by
        simp [alistErase, hne], alistValues_cons]
      simp only [List.mem_cons, not_or]
      exact ⟨fun he => hvp he.symm, ih hk.2 hv.2 h⟩

/-- Number of entries bound to a given path. -/
def pathCount {α : Type} [DecidableEq α] (m : List (String × α)) (p : α) : Nat :=
  (m.filter (fun kv => kv.2 = p)).length

theorem pathCount_eq_zero {α : Type} [DecidableEq α]
    {m : List (String × α)} {p : α} (h : p ∉ alistValues m) :
    pathCount m p = 0 := by
  induction m with
  | nil => rfl
  | cons kv rest ih =>
    obtain ⟨k', v'⟩ := kv
    rw [alistValues_cons] at h
    simp only [List.mem_cons, not_or] at h
    simp [pathCount, List.filter, decide_eq_true_eq, Ne.symm h.1] at ih ⊢
    exact ih h.2

theorem pathCount_eq_one {α : Type} [DecidableEq α]
    {m : List (String × α)} {p : α} {k : String}
    (hv : (alistValues m).Nodup) (h : (k, p) ∈ m) : pathCount m p = 1 := by
  induction m with
  | nil => simp at h
  | cons kv rest ih =>
    obtain ⟨k', v'⟩ := kv
    rw [alistValues_cons] at hv
    simp only [List.nodup_cons] at hv
    simp only [List.mem_cons] at h
    by_cases hvp : v' = p
    · have : pathCount rest p = 0 := pathCount_eq_zero (hvp ▸ hv.1)
      simp [pathCount, List.filter, hvp] at this ⊢
      exact this
    · rcases h with h | h
      · exact absurd (congrArg Prod.snd h).symm hvp
      · simp [pathCount, List.filter, hvp] at ih ⊢
        exact ih hv.2 h

theorem alistErase_length {α : Type} {m : List (String × α)} {k : String}
    (h : k ∈ alistKeys m) : (alistErase m k).length + 1 = m.length := by
  induction m with
  | nil => simp [alistKeys] at h
  | cons kv rest ih =>
    obtain ⟨k', v'⟩ := kv
    by_cases hk : k' = k
    · simp [alistErase, hk]
    · rw [alistKeys_cons] at h
      simp only [List.mem_cons] at h
      rcases h with h | h
      · exact absurd h.symm hk
      · simp only [alistErase, if_neg hk, List.length_cons]
        rw [← ih h]

/-! ### Lemmas about the pane list -/

theorem paneIndex_isSome_iff {l : List String} {k : String} :
    (paneIndex l k).isSome ↔ k ∈ l := by
  induction l with
  | nil => simp [paneIndex]
  | cons x rest ih =>
    by_cases hx : x = k
    · simp [paneIndex, hx]
    · have hmap : (Option.map (· + 1) (paneIndex rest k)).isSome
          = (paneIndex rest k).isSome := by
        cases paneIndex rest k <;> rfl
      simp only [paneIndex, if_neg hx, hmap, ih, List.mem_cons]
      simp [Ne.symm hx]

theorem keys_eraseIdx_of_paneIndex {α : Type} {m : List (String × α)}
    {k : String} {i : Nat} (h : paneIndex (alistKeys m) k = some i) :
    (alistKeys m).eraseIdx i = alistKeys (alistErase m k) := by
  induction m generalizing i with
  | nil => simp [alistKeys, paneIndex] at h
  | cons kv rest ih =>
    obtain ⟨k', v'⟩ := kv
    rw [alistKeys_cons] at h ⊢
    by_cases hk : k' = k
    · simp only [paneIndex, if_pos hk, Option.some.injEq] at h
      rw [← h]
      simp [alistErase, hk]
    · simp only [paneIndex, if_neg hk, Option.map_eq_some'] at h
      obtain ⟨j, hj, hij⟩ := h
      rw [← hij]
      rw [show alistErase ((k', v') :: rest) k = (k', v') :: alistErase rest k from by
        simp [alistErase, hk], alistKeys_cons]
      simp only [List.eraseIdx_cons_succ, List.cons.injEq, true_and]
      exact ih hj

theorem paneIndex_lt_length {l : List String} {k : String} {i : Nat}
    (h : paneIndex l k = some i) : i < l.length := by
  induction l generalizing i with
  | nil => simp [paneIndex] at h
  | cons x rest ih =>
    by_cases hx : x = k
    · simp only [paneIndex, if_pos hx, Option.some.injEq] at h
      simp [← h]
    · simp only [paneIndex, if_neg hx, Option.map_eq_some'] at h
      obtain ⟨j, hj, hij⟩ := h
      rw [← hij]
      simpa using ih hj

theorem mem_eraseIdx_of_ne {l : List String} {a k : String} {i : Nat}
    (ha : a ∈ l) (hak : a ≠ k) (h : paneIndex l k = some i) :
    a ∈ l.eraseIdx i := by
  induction l generalizing i with
  | nil => simp at ha
  | cons x rest ih =>
    by_cases hx : x = k
    · simp only [paneIndex, if_pos hx, Option.some.injEq] at h
      rw [← h]
      simp only [List.eraseIdx_cons_zero]
      rcases List.mem_cons.mp ha with h' | h'
      · exact absurd (h'.trans hx) hak
      · exact h'
    · simp only [paneIndex, if_neg hx, Option.map_eq_some'] at h
      obtain ⟨j, hj, hij⟩ := h
      rw [← hij]
      simp only [List.eraseIdx_cons_succ, List.mem_cons]
      rcases List.mem_cons.mp ha with h' | h'
      · exact Or.inl h'
      · exact Or.inr (ih h' hj)

theorem get?_min_mem {l : List String} {i : Nat} (h : l ≠ []) :
    ∃ a, l.get? (min i (l.length - 1)) = some a ∧ a ∈ l := by
  have hlen : 0 < l.length := List.length_pos.mpr h
  have hlt : min i (l.length - 1) < l.length :=
    lt_of_le_of_lt (min_le_right _ _) (by omega)
  refine ⟨l.get ⟨_, hlt⟩, ?_, List.get_mem l _ hlt⟩
  exact List.get?_eq_get hlt

/-! ### A preview tab id is never the terminal tab id -/

theorem preview_ne_terminal (s : String) :
    "preview_tab_" ++ s ≠ "terminal_tab" := by
  intro h
  have h2 : ("preview_tab_" ++ s).data = "terminal_tab".data := congrArg String.data h
  rw [String.data_append] at h2
  have hp : "preview_tab_".data
      = 'p' :: ['r', 'e', 'v', 'i', 'e', 'w', '_', 't', 'a', 'b', '_'] := rfl
  have ht : "terminal_tab".data
      = 't' :: ['e', 'r', 'm', 'i', 'n', 'a', 'l', '_', 't', 'a', 'b'] := rfl
  rw [hp, ht, List.cons_append] at h2
  have : 'p' = 't' := (List.cons.injEq _ _ _ _ ▸ h2).1
  exact absurd this (by decide)

/-! ### Invariants -/

/-- The TabSet invariant of the editor: the pane list mirrors the keys
of `open_files`, the keys are distinct, and the active pointer, when
non-null, is a key (when null, the set is empty). -/
def TabSetInv (st : TabbedTextArea) : Prop :=
  st.content.panes = alistKeys st.open_files ∧
  (alistKeys st.open_files).Nodup ∧
  (match st.content.active with
   | none => st.open_files = []
   | some a => a ∈ alistKeys st.open_files)

/-- Well-formedness of the preview panel: distinct keys, distinct paths,
every mapped tab has its pane and viewer, and the id that would be
minted next is not already taken. -/
def PanelWF (rp : TabbedRightPanel) : Prop :=
  (alistKeys rp.open_files).Nodup ∧
  (alistValues rp.open_files).Nodup ∧
  (∀ kv ∈ rp.open_files, kv.1 ∈ rp.content.panes ∧ kv.1 ∈ alistKeys rp.viewers) ∧
  ("preview_tab_" ++ toString rp.open_files.length) ∉ alistKeys rp.open_files

/-- Every key of the panel's mapping has the `preview_tab_<n>` shape. -/
def PreviewKeysOnly (rp : TabbedRightPanel) : Prop :=
  ∀ kv ∈ rp.open_files, ∃ n : Nat, kv.1 = "preview_tab_" ++ toString n

/-! ### Concrete fixtures for the closed instances -/

/-- A disk on which every write succeeds. -/
def dOk : Disk := { files := [], writeOk := fun _ => true }

/-- A disk on which every write fails. -/
def dRO : Disk := { files := [], writeOk := fun _ => false }

/-- An editor with `a.md` open in `tab_0`, which is active. -/
def stOne : TabbedTextArea :=
  { open_files := [("tab_0", "a.md")], editors := [("tab_0", "hello")],
    content := { panes := ["tab_0"], active := some "tab_0" } }

/-- An editor with two tabs, `tab_1` active. -/
def stTwo : TabbedTextArea :=
  { open_files := [("tab_0", "a.md"), ("tab_1", "b.py")],
    editors := [("tab_0", "hello"), ("tab_1", "world")],
    content := { panes := ["tab_0", "tab_1"], active := some "tab_1" } }

/-- The mounted right panel holding only the pinned terminal tab. -/
def rpT : TabbedRightPanel := (TabbedRightPanel.init true).on_mount

/-- The mounted right panel with the terminal and one preview tab for
`a.md` (the state `rpT.add_markdown_tab "a.md" "hello"` produces). -/
def rpOne : TabbedRightPanel :=
  { open_files := [("preview_tab_0", "a.md")],
    viewers := [("preview_tab_0", "hello")],
    content := { panes := ["terminal_tab", "preview_tab_0"],
                 active := some "preview_tab_0" },
    hasTerminal := true }

/-! ### Claim C1 — tab identifier minting -/

/-- C1 counterexample: opening three files yields `tab_0`, `tab_1`,
`tab_2`; after closing `tab_1`, opening a fourth file yields `tab_2` —
a reused id (indeed one that collides with the still-open `tab_2`) —
and not `tab_3` as the claim states. -/
theorem claim_C1_counterexample :
    (TabbedTextArea.init.add_file_tab dOk "p0").1 = "tab_0" ∧
    ((TabbedTextArea.init.add_file_tab dOk "p0").2.add_file_tab dOk "p1").1 = "tab_1" ∧
    (((TabbedTextArea.init.add_file_tab dOk "p0").2.add_file_tab dOk
      "p1").2.add_file_tab dOk "p2").1 = "tab_2" ∧
    ((((TabbedTextArea.init.add_file_tab dOk "p0").2.add_file_tab dOk
      "p1").2.add_file_tab dOk "p2").2.close_tab rpT (some "tab_1")).1 = true ∧
    (((((TabbedTextArea.init.add_file_tab dOk "p0").2.add_file_tab dOk
      "p1").2.add_file_tab dOk "p2").2.close_tab rpT
      (some "tab_1")).2.1.add_file_tab dOk "p3").1 = "tab_2" ∧
    "tab_2" ≠ "tab_3" := by decide

/-- C1 (amended): a freshly opened path is assigned the id
`tab_<current open-count>` (`preview_tab_<current open-count>` for
preview tabs), so ids freed by closing a tab are reused as soon as the
count shrinks — in the three-open/one-close scenario the fourth file
gets `tab_2`, not `tab_3`. -/
theorem claim_C1_tab_ids (st : TabbedTextArea) (rp : TabbedRightPanel)
    (d : Disk) (p c : String) :
    (firstKeyOf st.open_files p = none →
      (st.add_file_tab d p).1 = "tab_" ++ toString st.open_files.length) ∧
    (firstKeyOf rp.open_files p = none →
      (rp.add_markdown_tab p c).1 = "preview_tab_" ++ toString rp.open_files.length) := by
  constructor
  · intro h
    simp [TabbedTextArea.add_file_tab, h]
  · intro h
    simp [TabbedRightPanel.add_markdown_tab, h]

/-- C1 witness: the amended theorem at the empty editor and panel. -/
theorem claim_C1_witness :
    (TabbedTextArea.init.add_file_tab dOk "p0").1 = "tab_0" ∧
    (rpT.add_markdown_tab "a.md" "txt").1 = "preview_tab_0" :=
  ⟨(claim_C1_tab_ids TabbedTextArea.init rpT dOk "p0" "txt").1 rfl,
   (claim_C1_tab_ids TabbedTextArea.init rpT dOk "a.md" "txt").2 rfl⟩

/-! ### Claim C3 — the pinned terminal tab refuses to close -/

/-- C3 counterexample: `close_tab_by_id` on the terminal tab returns
false and leaves the panel unchanged but surfaces NO notification — the
claim that a user-visible "cannot be closed" signal is surfaced for an
attempt by id is false (only the active-tab shortcut and the pointer
hit-test paths notify). -/
theorem claim_C3_counterexample :
    rpT.close_tab_by_id terminal_tab_id = (false, rpT, []) := by decide

/-- C3 (amended): both close operations refuse the pinned terminal tab,
returning false with the tab set and every tab identifier unchanged;
`close_active_tab` and the pointer hit-test path surface the
"Terminal tab cannot be closed" notification, while `close_tab_by_id`
itself refuses silently (its callers are expected to notify). -/
theorem claim_C3_pinned_guard (rp : TabbedRightPanel) (x : Int) :
    (rp.content.active = some terminal_tab_id →
      rp.close_active_tab = (false, rp, ["Terminal tab cannot be closed"])) ∧
    rp.close_tab_by_id terminal_tab_id = (false, rp, []) ∧
    (rp.hasTerminal = true → 0 ≤ x → x < Int.ofNat terminalTitle.length + 4 →
      rp.on_mouse_down 3 x 0 = (rp, ["Terminal tab cannot be closed"], true)) := by
  refine ⟨?_, ?_, ?_⟩
  · intro h
    simp [TabbedRightPanel.close_active_tab, h]
  · simp [TabbedRightPanel.close_tab_by_id]
  · intro ht h0 hx
    have h1 : rp.get_tab_at_position x 0 = some terminal_tab_id := by
      unfold TabbedRightPanel.get_tab_at_position
      rw [if_pos rfl, if_pos ⟨ht, h0, hx⟩]
    simp [TabbedRightPanel.on_mouse_down, h1]

/-- C3 witness: the amended theorem at the mounted terminal-only panel
(`terminal_tab` active) and the pointer at column 2 of the header row. -/
theorem claim_C3_witness :
    rpT.close_active_tab = (false, rpT, ["Terminal tab cannot be closed"]) ∧
    rpT.close_tab_by_id terminal_tab_id = (false, rpT, []) ∧
    rpT.on_mouse_down 3 2 0 = (rpT, ["Terminal tab cannot be closed"], true) :=
  ⟨(claim_C3_pinned_guard rpT 2).1 rfl,
   (claim_C3_pinned_guard rpT 2).2.1,
   (claim_C3_pinned_guard rpT 2).2.2 rfl (by decide) (by decide)⟩

/-! ### Claim C5 — key routing precedence in the right panel -/

/-- C5: the panel's key handler delegates `ctrl+s`, `ctrl+t` and
`ctrl+q` to the app, handles `ctrl+w` after them (delegating to the
app's close-editor-tab action when the pinned terminal tab is active,
leaving the panel's own tabs untouched, and closing the active preview
tab locally otherwise), stops each of those four keys, and leaves every
other key unintercepted and the panel unchanged. -/
theorem claim_C5_key_routing (rp : TabbedRightPanel) (key : String) :
    rp.on_key "ctrl+s" = ⟨some AppAction.saveFile, rp, [], true⟩ ∧
    rp.on_key "ctrl+t" = ⟨some AppAction.toggleTerminal, rp, [], true⟩ ∧
    rp.on_key "ctrl+q" = ⟨some AppAction.quitApp, rp, [], true⟩ ∧
    (rp.content.active = some terminal_tab_id →
      rp.on_key "ctrl+w" = ⟨some AppAction.closeEditorTab, rp, [], true⟩) ∧
    (rp.content.active ≠ some terminal_tab_id →
      rp.on_key "ctrl+w" =
        ⟨none, rp.close_active_tab.2.1, rp.close_active_tab.2.2, true⟩) ∧
    (key ≠ "ctrl+s" → key ≠ "ctrl+t" → key ≠ "ctrl+q" → key ≠ "ctrl+w" →
      rp.on_key key = ⟨none, rp, [], false⟩) := by
  refine ⟨?_, ?_, ?_, ?_, ?_, ?_⟩
  · simp [TabbedRightPanel.on_key]
  · simp [TabbedRightPanel.on_key]
  · simp [TabbedRightPanel.on_key]
  · intro h
    simp [TabbedRightPanel.on_key, h]
  · intro h
    simp [TabbedRightPanel.on_key, h]
  · intro h1 h2 h3 h4
    simp [TabbedRightPanel.on_key, h1, h2, h3, h4]

/-- C5 witness: the routing theorem at the terminal-only panel (pinned
tab active, `ctrl+w` delegates to the app; the letter `a` passes
through) and at the panel with an active preview tab (`ctrl+w` closes
it locally). -/
theorem claim_C5_witness :
    rpT.on_key "ctrl+w" = ⟨some AppAction.closeEditorTab, rpT, [], true⟩ ∧
    rpT.on_key "a" = ⟨none, rpT, [], false⟩ ∧
    rpOne.on_key "ctrl+w" =
      ⟨none, rpOne.close_active_tab.2.1, rpOne.close_active_tab.2.2, true⟩ :=
  ⟨(claim_C5_key_routing rpT "a").2.2.2.1 rfl,
   (claim_C5_key_routing rpT "a").2.2.2.2.2
     (by decide) (by decide) (by decide) (by decide),
   (claim_C5_key_routing rpOne "a").2.2.2.2.1 (by decide)⟩

/-! ### Claim C7 — splitter drag clamping -/

/-- C7 counterexample: in a 20-cell-wide container the vertical
splitter's clamp applies width 16, which exceeds the claimed upper
bound `container extent - 10 = 10`: the claimed bounds cannot both hold
when the container is smaller than minimum + reserve. -/
theorem claim_C7_counterexample :
    VerticalSplitter.on_mouse_move ⟨true, 0, 30⟩ 20 0 = some 16 ∧
    ¬ ((16 : Int) ≤ 20 - 10) := by decide

/-- C7 (amended): during a drag the applied pane size never drops below
the fixed minimum (16 cells left of a vertical splitter, 5 rows below a
horizontal one); whenever the container extent is at least minimum +
reserve (26 / 15), the applied size also stays at most the extent minus
the 10-cell reserve — in smaller containers the minimum wins and may
exceed that bound.  The resized pane is the sibling immediately before
(vertical), resp. after (horizontal), the splitter in child order. -/
theorem claim_C7_splitter_clamp (s : SplitterState) (pw px ph py : Int)
    (children : List String) (i : Nat) :
    (s.dragging = true → 26 ≤ pw →
      ∃ w, VerticalSplitter.on_mouse_move s pw px = some w ∧
        16 ≤ w ∧ w ≤ pw - 10) ∧
    (s.dragging = true → 15 ≤ ph →
      ∃ h, HorizontalSplitter.on_mouse_move s ph py = some h ∧
        5 ≤ h ∧ h ≤ ph - 10) ∧
    16 ≤ verticalNewWidth s pw px ∧
    5 ≤ horizontalNewHeight s ph py ∧
    (1 ≤ i → VerticalSplitter.left_widget children i = children.get? (i - 1)) ∧
    HorizontalSplitter.below_widget children i = children.get? (i + 1) := by
  refine ⟨?_, ?_, le_max_left _ _, le_max_left _ _, ?_, ?_⟩
  · intro hd hw
    refine ⟨verticalNewWidth s pw px, by simp [VerticalSplitter.on_mouse_move, hd],
      le_max_left _ _, ?_⟩
    exact max_le (by omega) (min_le_left _ _)
  · intro hd hh
    refine ⟨horizontalNewHeight s ph py, by simp [HorizontalSplitter.on_mouse_move, hd],
      le_max_left _ _, ?_⟩
    exact max_le (by omega) (min_le_left _ _)
  · intro hi
    have hi' : (1 : Int) ≤ (i : Int) := by exact_mod_cast hi
    have h0 : (0 : Int) ≤ (i : Int) - 1 := by omega
    have ht : ((i : Int) - 1).toNat = i - 1 := by omega
    simp [VerticalSplitter.left_widget, pyIndexGet, Int.ofNat_eq_coe, h0, ht]
  · have h0 : (0 : Int) ≤ (i : Int) + 1 := by omega
    have ht : ((i : Int) + 1).toNat = i + 1 := by omega
    simp [HorizontalSplitter.below_widget, pyIndexGet, Int.ofNat_eq_coe, h0, ht]

/-- C7 witness: the clamp theorem at a dragging splitter in an
80-by-40 container, with the splitter as the second child. -/
theorem claim_C7_witness :
    (∃ w, VerticalSplitter.on_mouse_move ⟨true, 3, 30⟩ 80 7 = some w ∧
      16 ≤ w ∧ w ≤ 80 - 10) ∧
    (∃ h, HorizontalSplitter.on_mouse_move ⟨true, 3, 30⟩ 40 7 = some h ∧
      5 ≤ h ∧ h ≤ 40 - 10) ∧
    VerticalSplitter.left_widget ["tree", "splitter", "editor"] 1 = some "tree" ∧
    HorizontalSplitter.below_widget ["term", "splitter", "below"] 1 = some "below" := by
  obtain ⟨hv, hh, -, -, hl, hb⟩ :=
    claim_C7_splitter_clamp ⟨true, 3, 30⟩ 80 7 40 7 ["tree", "splitter", "editor"] 1
  refine ⟨hv rfl (by decide), hh rfl (by decide), ?_, ?_⟩
  · rw [hl (by decide)]
    decide
  · obtain ⟨-, -, -, -, -, hb'⟩ :=
      claim_C7_splitter_clamp ⟨true, 3, 30⟩ 80 7 40 7 ["term", "splitter", "below"] 1
    rw [hb']
    decide

/-! ### Claim C9 — save_active -/

/-- C9: `save_active_file` writes the active buffer's in-memory text to
its bound path and returns true when the write succeeds; it returns
false when there is no active tab or the write fails; the in-memory
widget state is returned untouched in every case and the disk is
untouched on failure. -/
theorem claim_C9_save_active (st : TabbedTextArea) (d : Disk) :
    (st.save_active_file d).2.1 = st ∧
    (st.content.active = none → st.save_active_file d = (false, st, d)) ∧
    (∀ text file_path, st.get_active_editor = some text →
      st.get_active_file_path = some file_path →
      (d.writeOk file_path = true →
        (st.save_active_file d).1 = true ∧
        alistLookup (st.save_active_file d).2.2.files file_path = some text) ∧
      (d.writeOk file_path = false → st.save_active_file d = (false, st, d))) := by
  refine ⟨?_, ?_, ?_⟩
  · rcases he : st.get_active_editor with _ | text
    · simp [TabbedTextArea.save_active_file, he]
    · rcases hp : st.get_active_file_path with _ | fp
      · simp [TabbedTextArea.save_active_file, he, hp]
      · rcases hw : d.writeOk fp
        · simp [TabbedTextArea.save_active_file, he, hp, Disk.write, hw]
        · simp [TabbedTextArea.save_active_file, he, hp, Disk.write, hw]
  · intro h
    simp [TabbedTextArea.save_active_file, TabbedTextArea.get_active_editor, h]
  · intro text fp he hp
    constructor
    · intro hw
      simp [TabbedTextArea.save_active_file, he, hp, Disk.write, hw,
        alistLookup_set_self]
    · intro hw
      simp [TabbedTextArea.save_active_file, he, hp, Disk.write, hw]

/-- C9 witness: saving the editor with `a.md` active succeeds on a
writable disk (and stores the buffer text), and fails, leaving
everything untouched, on a read-only disk. -/
theorem claim_C9_witness :
    (stOne.save_active_file dOk).1 = true ∧
    alistLookup (stOne.save_active_file dOk).2.2.files "a.md" = some "hello" ∧
    stOne.save_active_file dRO = (false, stOne, dRO) :=
  ⟨(((claim_C9_save_active stOne dOk).2.2 "hello" "a.md" rfl rfl).1 rfl).1,
   (((claim_C9_save_active stOne dOk).2.2 "hello" "a.md" rfl rfl).1 rfl).2,
   ((claim_C9_save_active stOne dRO).2.2 "hello" "a.md" rfl rfl).2 rfl⟩

/-! ### Claim C2 — opening is idempotent per path -/

theorem add_file_tab_values_nodup (st : TabbedTextArea) (d : Disk) (p : String)
    (h : (alistValues st.open_files).Nodup) :
    (alistValues (st.add_file_tab d p).2.open_files).Nodup := by
  rcases hf : firstKeyOf st.open_files p with _ | tid
  · simp only [TabbedTextArea.add_file_tab, hf]
    exact alistValues_nodup_set _ h (firstKeyOf_eq_none_iff.mp hf)
  · simp only [TabbedTextArea.add_file_tab, hf]
    exact h

/-- A whole session of opens, starting from the freshly composed editor. -/
def opensFrom (d : Disk) (ps : List String) : TabbedTextArea :=
  ps.foldl (fun st p => (st.add_file_tab d p).2) TabbedTextArea.init

theorem opensFrom_values_nodup (d : Disk) (ps : List String) :
    (alistValues (opensFrom d ps).open_files).Nodup := by
  have h : ∀ (st : TabbedTextArea), (alistValues st.open_files).Nodup →
      (alistValues
        (ps.foldl (fun st p => (st.add_file_tab d p).2) st).open_files).Nodup := by
    induction ps with
    | nil => intro st h; simpa using h
    | cons p rest ih =>
      intro st h
      simpa using ih _ (add_file_tab_values_nodup st d p h)
  exact h TabbedTextArea.init (by simp [TabbedTextArea.init, alistValues])

/-- C2: opening an already-open path activates and returns the existing
tab id without touching the mapping and without reading the disk (the
result is disk-independent); the stored paths stay pairwise distinct
after any open — in particular after every whole session of opens from
the fresh editor — and opening the same path twice yields the same id. -/
theorem claim_C2_open_unique (st : TabbedTextArea) (d d' : Disk) (p : String)
    (hnd : (alistValues st.open_files).Nodup) :
    (∀ tid, firstKeyOf st.open_files p = some tid →
      st.add_file_tab d p = (tid, { st with content := st.content.setActive tid })) ∧
    (st.add_file_tab d p).1 = (st.add_file_tab d' p).1 ∧
    (alistValues (st.add_file_tab d p).2.open_files).Nodup ∧
    ((st.add_file_tab d p).2.add_file_tab d' p).1 = (st.add_file_tab d p).1 ∧
    (∀ ps : List String, (alistValues (opensFrom d ps).open_files).Nodup) := by
  refine ⟨?_, ?_, add_file_tab_values_nodup st d p hnd, ?_,
    fun ps => opensFrom_values_nodup d ps⟩
  · intro tid h
    simp [TabbedTextArea.add_file_tab, h]
  · rcases hf : firstKeyOf st.open_files p with _ | tid
    · simp [TabbedTextArea.add_file_tab, hf]
    · simp [TabbedTextArea.add_file_tab, hf]
  · rcases hf : firstKeyOf st.open_files p with _ | tid
    · have h2 : firstKeyOf
          (alistSet st.open_files ("tab_" ++ toString st.open_files.length) p) p
          = some ("tab_" ++ toString st.open_files.length) :=
        firstKeyOf_set_fresh _ (firstKeyOf_eq_none_iff.mp hf)
      simp only [TabbedTextArea.add_file_tab, hf]
      simp [TabbedTextArea.add_file_tab, h2]
    · simp only [TabbedTextArea.add_file_tab, hf]

/-- C2 witness: re-opening `a.md` in the one-tab editor returns its
existing `tab_0` and only re-activates it; opening `b.py` twice from
the fresh editor (under different disks) yields the same id. -/
theorem claim_C2_witness :
    stOne.add_file_tab dOk "a.md"
      = ("tab_0", { stOne with content := stOne.content.setActive "tab_0" }) ∧
    ((TabbedTextArea.init.add_file_tab dOk "b.py").2.add_file_tab dRO "b.py").1
      = (TabbedTextArea.init.add_file_tab dOk "b.py").1 :=
  ⟨(claim_C2_open_unique stOne dOk dRO "a.md" (by decide)).1 "tab_0" rfl,
   (claim_C2_open_unique TabbedTextArea.init dOk dRO "b.py" (by decide)).2.2.2.1⟩

/-! ### Claim C4 — closing a markdown editor tab retracts its preview -/

/-- C4: successfully closing an editor tab whose path has the `.md`
suffix (case-insensitively) leaves the right panel with no preview tab
bound to that path, while closing a non-markdown tab leaves the panel
untouched. -/
theorem claim_C4_markdown_close_sync (st : TabbedTextArea) (rp : TabbedRightPanel)
    (tid fp : String)
    (hlk : alistLookup st.open_files tid = some fp)
    (hk : (alistKeys rp.open_files).Nodup)
    (hv : (alistValues rp.open_files).Nodup) :
    (st.close_tab rp (some tid)).1 = true ∧
    (strLower (pathSuffix fp) = ".md" →
      fp ∉ alistValues (st.close_tab rp (some tid)).2.2.open_files) ∧
    (strLower (pathSuffix fp) ≠ ".md" → (st.close_tab rp (some tid)).2.2 = rp) := by
  refine ⟨?_, ?_, ?_⟩
  · simp only [TabbedTextArea.close_tab, hlk]
    split <;> rfl
  · intro hmd
    simp only [TabbedTextArea.close_tab, hlk, if_pos hmd]
    rcases hf : firstKeyOf rp.open_files fp with _ | k
    · simp only [TabbedRightPanel.remove_markdown_tab, hf]
      exact firstKeyOf_eq_none_iff.mp hf
    · simp only [TabbedRightPanel.remove_markdown_tab, hf]
      exact not_mem_values_erase_firstKey hk hv hf
  · intro hmd
    simp only [TabbedTextArea.close_tab, hlk, if_neg hmd]

/-- C4 witness: closing `tab_0` (bound to `a.md`) in the one-tab editor
succeeds and removes the `a.md` preview tab from the panel; closing the
`b.py` tab of the two-tab editor succeeds and leaves the panel alone. -/
theorem claim_C4_witness :
    (stOne.close_tab rpOne (some "tab_0")).1 = true ∧
    "a.md" ∉ alistValues (stOne.close_tab rpOne (some "tab_0")).2.2.open_files ∧
    (stTwo.close_tab rpOne (some "tab_1")).2.2 = rpOne :=
  ⟨(claim_C4_markdown_close_sync stOne rpOne "tab_0" "a.md" rfl
      (by decide) (by decide)).1,
   (claim_C4_markdown_close_sync stOne rpOne "tab_0" "a.md" rfl
      (by decide) (by decide)).2.1 (by decide),
   (claim_C4_markdown_close_sync stTwo rpOne "tab_1" "b.py" rfl
      (by decide) (by decide)).2.2 (by decide)⟩

/-! ### Claim C8 — add_or_update_markdown twice for one path -/

/-- C8: on a well-formed panel, calling `add_markdown_tab` twice for the
same path with two contents returns the same tab id both times, creates
no new identity on the second call, leaves exactly one preview tab for
the path — holding the second content — and leaves that tab active. -/
theorem claim_C8_add_or_update (rp : TabbedRightPanel) (p c1 c2 : String)
    (h : PanelWF rp) :
    ((rp.add_markdown_tab p c1).2.add_markdown_tab p c2).1
      = (rp.add_markdown_tab p c1).1 ∧
    ((rp.add_markdown_tab p c1).2.add_markdown_tab p c2).2.open_files
      = (rp.add_markdown_tab p c1).2.open_files ∧
    pathCount ((rp.add_markdown_tab p c1).2.add_markdown_tab p c2).2.open_files p
      = 1 ∧
    alistLookup ((rp.add_markdown_tab p c1).2.add_markdown_tab p c2).2.viewers
      (rp.add_markdown_tab p c1).1 = some c2 ∧
    ((rp.add_markdown_tab p c1).2.add_markdown_tab p c2).2.content.active
      = some (rp.add_markdown_tab p c1).1 := by
  obtain ⟨hknd, hvnd, hwf, hfresh⟩ := h
  rcases hf : firstKeyOf rp.open_files p with _ | tid
  · -- the first call mints a fresh preview tab
    have hp : p ∉ alistValues rp.open_files := firstKeyOf_eq_none_iff.mp hf
    have h2 : firstKeyOf
        (alistSet rp.open_files ("preview_tab_" ++ toString rp.open_files.length) p) p
        = some ("preview_tab_" ++ toString rp.open_files.length) :=
      firstKeyOf_set_fresh _ hp
    have hm : ("preview_tab_" ++ toString rp.open_files.length)
        ∈ rp.content.panes ++ ["preview_tab_" ++ toString rp.open_files.length] :=
      List.mem_append_right _ (List.mem_singleton_self _)
    refine ⟨?_, ?_, ?_, ?_, ?_⟩ <;>
      simp only [TabbedRightPanel.add_markdown_tab, hf, h2,
        TabbedContent.addPane, TabbedContent.setActive, hm, if_true]
    · rw [pathCount, alistSet_fresh p hfresh, List.filter_append]
      have h0 : pathCount rp.open_files p = 0 := pathCount_eq_zero hp
      rw [pathCount] at h0
      simp [h0, List.filter]
    · exact alistLookup_update_self c2 (mem_alistKeys_set_self rp.viewers _ c1)
  · -- the first call updates the existing preview tab in place
    have hmem : (tid, p) ∈ rp.open_files := firstKeyOf_some_mem hf
    have htp := (hwf _ hmem).1
    have htv := (hwf _ hmem).2
    refine ⟨?_, ?_, ?_, ?_, ?_⟩ <;>
      simp only [TabbedRightPanel.add_markdown_tab, hf,
        TabbedContent.setActive, htp, if_true]
    · exact pathCount_eq_one hvnd hmem
    · refine alistLookup_update_self c2 ?_
      rw [alistKeys_update]
      exact htv

/-- C8 witness: rendering `a.md` twice into the terminal-only panel
(contents `one` then `two`) returns `preview_tab_0` both times and
leaves one active preview tab for `a.md` holding `two`. -/
theorem claim_C8_witness :
    ((rpT.add_markdown_tab "a.md" "one").2.add_markdown_tab "a.md" "two").1
      = (rpT.add_markdown_tab "a.md" "one").1 ∧
    pathCount
      ((rpT.add_markdown_tab "a.md" "one").2.add_markdown_tab "a.md" "two").2.open_files
      "a.md" = 1 ∧
    alistLookup
      ((rpT.add_markdown_tab "a.md" "one").2.add_markdown_tab "a.md" "two").2.viewers
      (rpT.add_markdown_tab "a.md" "one").1 = some "two" :=
  ⟨(claim_C8_add_or_update rpT "a.md" "one" "two"
      ⟨by decide, by decide, by decide, by decide⟩).1,
   (claim_C8_add_or_update rpT "a.md" "one" "two"
      ⟨by decide, by decide, by decide, by decide⟩).2.2.1,
   (claim_C8_add_or_update rpT "a.md" "one" "two"
      ⟨by decide, by decide, by decide, by decide⟩).2.2.2.1⟩

/-! ### Claim C10 — the pinned terminal tab is never in the path mapping -/

/-- C10: when every key of the panel mapping has the `preview_tab_<n>`
shape (as established by construction and preserved below), the pinned
id `terminal_tab` is not a key; the path-based operations preserve the
key shape and never remove the terminal pane; `update_markdown_tab`
does not touch the mapping at all; and the mounted panel starts with an
empty mapping while its terminal pane is already mounted. -/
theorem claim_C10_terminal_never_mapped (rp : TabbedRightPanel)
    (p c : String) (b : Bool) (h : PreviewKeysOnly rp)
    (ht : terminal_tab_id ∈ rp.content.panes) :
    terminal_tab_id ∉ alistKeys rp.open_files ∧
    (PreviewKeysOnly (rp.add_markdown_tab p c).2 ∧
      terminal_tab_id ∈ (rp.add_markdown_tab p c).2.content.panes) ∧
    (PreviewKeysOnly (rp.update_markdown_tab p c).2 ∧
      terminal_tab_id ∈ (rp.update_markdown_tab p c).2.content.panes ∧
      (rp.update_markdown_tab p c).2.open_files = rp.open_files) ∧
    (PreviewKeysOnly (rp.remove_markdown_tab p).2 ∧
      terminal_tab_id ∈ (rp.remove_markdown_tab p).2.content.panes) ∧
    (TabbedRightPanel.init b).on_mount.open_files = [] ∧
    (b = true → terminal_tab_id ∈ (TabbedRightPanel.init b).on_mount.content.panes) := by
  have hnk : terminal_tab_id ∉ alistKeys rp.open_files := by
    intro hmem
    obtain ⟨kv, hkv, hfst⟩ := List.mem_map.mp hmem
    obtain ⟨n, hn⟩ := h kv hkv
    exact preview_ne_terminal (toString n) (hn.symm.trans hfst)
  refine ⟨hnk, ⟨?_, ?_⟩, ⟨?_, ?_, rfl⟩, ⟨?_, ?_⟩, ?_, ?_⟩
  · -- add_markdown_tab preserves the key shape
    rcases hf : firstKeyOf rp.open_files p with _ | tid
    · simp only [TabbedRightPanel.add_markdown_tab, hf]
      intro kv hkv
      rcases mem_alistSet hkv with h' | h'
      · exact h kv h'
      · exact ⟨rp.open_files.length, by rw [h']⟩
    · have hof : (rp.add_markdown_tab p c).2.open_files = rp.open_files := by
        simp only [TabbedRightPanel.add_markdown_tab, hf]
        split <;> rfl
      rw [PreviewKeysOnly, hof]
      exact h
  · -- add_markdown_tab keeps the terminal pane
    rcases hf : firstKeyOf rp.open_files p with _ | tid
    · simp only [TabbedRightPanel.add_markdown_tab, hf, TabbedContent.addPane,
        TabbedContent.setActive]
      exact List.mem_append_left _ ht
    · simp only [TabbedRightPanel.add_markdown_tab, hf, TabbedContent.setActive]
      split <;> exact ht
  · -- update_markdown_tab leaves the mapping untouched
    exact h
  · exact ht
  · -- remove_markdown_tab preserves the key shape
    rcases hf : firstKeyOf rp.open_files p with _ | tid
    · simp only [TabbedRightPanel.remove_markdown_tab, hf]
      exact h
    · simp only [TabbedRightPanel.remove_markdown_tab, hf]
      intro kv hkv
      exact h kv (mem_of_mem_alistErase hkv)
  · -- remove_markdown_tab keeps the terminal pane
    rcases hf : firstKeyOf rp.open_files p with _ | tid
    · simp only [TabbedRightPanel.remove_markdown_tab, hf]
      exact ht
    · obtain ⟨n, hn⟩ := h _ (firstKeyOf_some_mem hf)
      have hne : terminal_tab_id ≠ tid := fun he =>
        preview_ne_terminal (toString n) (hn.symm.trans he.symm)
      simp only [TabbedRightPanel.remove_markdown_tab, hf, TabbedContent.removePane]
      rcases hpi : paneIndex rp.content.panes tid with _ | i
      · simpa [hpi] using ht
      · simpa [hpi] using mem_eraseIdx_of_ne ht hne hpi
  · -- the mounted panel starts with no mapping entry
    cases b <;> simp [TabbedRightPanel.init, TabbedRightPanel.on_mount]
  · -- ... and with the terminal pane mounted
    intro hb
    simp [TabbedRightPanel.init, TabbedRightPanel.on_mount, hb,
      TabbedContent.addPane, TabbedContent.setActive]

/-- C10 witness: the invariant theorem at the panel holding the
terminal and one `a.md` preview tab. -/
theorem claim_C10_witness :
    terminal_tab_id ∉ alistKeys rpOne.open_files ∧
    terminal_tab_id ∈ (rpOne.remove_markdown_tab "a.md").2.content.panes ∧
    (rpOne.update_markdown_tab "a.md" "new").2.open_files = rpOne.open_files :=
  ⟨(claim_C10_terminal_never_mapped rpOne "a.md" "new" true
      (fun kv hkv => by
        rcases List.mem_singleton.mp hkv with h
        exact ⟨0, by rw [h]; decide⟩)
      (by decide)).1,
   (claim_C10_terminal_never_mapped rpOne "a.md" "new" true
      (fun kv hkv => by
        rcases List.mem_singleton.mp hkv with h
        exact ⟨0, by rw [h]; decide⟩)
      (by decide)).2.2.2.1.2,
   (claim_C10_terminal_never_mapped rpOne "a.md" "new" true
      (fun kv hkv => by
        rcases List.mem_singleton.mp hkv with h
        exact ⟨0, by rw [h]; decide⟩)
      (by decide)).2.2.1.2.2⟩

/-! ### Claim C6 — the active-pointer invariant is preserved by close -/

theorem close_tab_result (st : TabbedTextArea) (rp : TabbedRightPanel)
    {tid fp : String} (hlk : alistLookup st.open_files tid = some fp) :
    (st.close_tab rp (some tid)).1 = true ∧
    (st.close_tab rp (some tid)).2.1 =
      { st with
        content := st.content.removePane tid,
        open_files := alistErase st.open_files tid,
        editors := alistErase st.editors tid } := by
  simp only [TabbedTextArea.close_tab, hlk]
  split <;> exact ⟨rfl, rfl⟩

theorem close_tab_core (st : TabbedTextArea) (rp : TabbedRightPanel) (tid : String)
    (h : TabSetInv st) :
    TabSetInv (st.close_tab rp (some tid)).2.1 ∧
    ((st.close_tab rp (some tid)).1 = false → (st.close_tab rp (some tid)).2.1 = st) ∧
    ((st.close_tab rp (some tid)).1 = true → st.open_files.length = 1 →
      (st.close_tab rp (some tid)).2.1.content.active = none) ∧
    ((st.close_tab rp (some tid)).1 = true → 2 ≤ st.open_files.length →
      ((st.close_tab rp (some tid)).2.1.content.active).isSome = true) := by
  obtain ⟨hpk, hknd, hact⟩ := h
  rcases hlk : alistLookup st.open_files tid with _ | fp
  · -- no such open tab: the call fails and nothing changes
    refine ⟨?_, ?_, ?_, ?_⟩
    · simp only [TabbedTextArea.close_tab, hlk]
      exact ⟨hpk, hknd, hact⟩
    · intro _
      simp only [TabbedTextArea.close_tab, hlk]
    · simp only [TabbedTextArea.close_tab, hlk]
      simp
    · simp only [TabbedTextArea.close_tab, hlk]
      simp
  · -- the tab exists: it is removed
    obtain ⟨hflag, hst⟩ := close_tab_result st rp hlk
    have hkm : tid ∈ alistKeys st.open_files := by
      by_contra hc
      rw [alistLookup_eq_none_iff.mpr hc] at hlk
      exact Option.noConfusion hlk
    have hpane_tid : tid ∈ st.content.panes := by rw [hpk]; exact hkm
    obtain ⟨i, hpi⟩ : ∃ i, paneIndex st.content.panes tid = some i := by
      have hs := paneIndex_isSome_iff.mpr hpane_tid
      rcases hp2 : paneIndex st.content.panes tid with _ | j
      · rw [hp2] at hs; simp at hs
      · exact ⟨j, rfl⟩
    have hkeys : st.content.panes.eraseIdx i = alistKeys (alistErase st.open_files tid) := by
      rw [hpk] at hpi ⊢
      exact keys_eraseIdx_of_paneIndex hpi
    have hknd' : (alistKeys (alistErase st.open_files tid)).Nodup :=
      hknd.sublist ((alistErase_sublist st.open_files tid).map Prod.fst)
    have hrp : st.content.removePane tid =
        { panes := st.content.panes.eraseIdx i,
          active :=
            if st.content.active = some tid then
              (st.content.panes.eraseIdx i).get?
                (min i ((st.content.panes.eraseIdx i).length - 1))
            else st.content.active } := by
      simp only [TabbedContent.removePane, hpi]
    have hlen : (alistErase st.open_files tid).length + 1 = st.open_files.length :=
      alistErase_length hkm
    rcases hactv : st.content.active with _ | a
    · -- a removable tab exists, so the active pointer cannot be null
      rw [hactv] at hact
      have hof : st.open_files = [] := hact
      rw [hof] at hkm
      simp [alistKeys] at hkm
    · have ha : a ∈ alistKeys st.open_files := by rw [hactv] at hact; exact hact
      by_cases hat : a = tid
      · -- the active tab itself is removed: a neighbor is promoted
        have hcond : st.content.active = some tid := by rw [hactv, hat]
        rcases hemp : alistErase st.open_files tid with _ | ⟨kv, rest⟩
        · -- it was the only tab: the pointer is nulled
          have hps : st.content.panes.eraseIdx i = [] := by
            rw [hkeys, hemp]; rfl
          have hactive : (st.close_tab rp (some tid)).2.1.content.active = none := by
            rw [hst, hrp]
            simp [hcond, hps]
          refine ⟨?_, ?_, fun _ _ => hactive, ?_⟩
          · rw [TabSetInv, hst, hrp]
            refine ⟨by simp [hkeys], by simp [hknd'], ?_⟩
            simp [hcond, hps, hemp]
          · intro hfalse
            rw [hflag] at hfalse
            exact absurd hfalse (by simp)
          · intro _ hge
            rw [← hlen, hemp] at hge
            simp at hge
        · -- other tabs remain: the promoted neighbor is one of them
          have hne : st.content.panes.eraseIdx i ≠ [] := by
            rw [hkeys, hemp]
            simp [alistKeys]
          obtain ⟨a', hget, hmem'⟩ := get?_min_mem (i := i) hne
          have hactive : (st.close_tab rp (some tid)).2.1.content.active = some a' := by
            simp only [hst, hrp]
            rw [if_pos hcond]
            exact hget
          refine ⟨?_, ?_, ?_, fun _ _ => by rw [hactive]; rfl⟩
          · rw [TabSetInv, hst, hrp]
            refine ⟨by simp [hkeys], by simp [hknd'], ?_⟩
            rw [if_pos hcond, hget]
            show a' ∈ alistKeys (alistErase st.open_files tid)
            rw [← hkeys]
            exact hmem'
          · intro hfalse
            rw [hflag] at hfalse
            exact absurd hfalse (by simp)
          · intro _ h1
            rw [← hlen, hemp] at h1
            simp at h1
      · -- some other tab is removed: the active pointer is untouched
        have hcond : ¬ st.content.active = some tid := by
          rw [hactv]
          intro he
          exact hat (Option.some.injEq a tid ▸ he)
        have hactive : (st.close_tab rp (some tid)).2.1.content.active = some a := by
          simp only [hst, hrp]
          rw [if_neg hcond]
          exact hactv
        have hmm : a ∈ alistKeys (alistErase st.open_files tid) := by
          rw [← hkeys]
          exact mem_eraseIdx_of_ne (by rw [hpk]; exact ha) hat hpi
        refine ⟨?_, ?_, ?_, fun _ _ => by rw [hactive]; rfl⟩
        · rw [TabSetInv, hst, hrp]
          refine ⟨by simp [hkeys], by simp [hknd'], ?_⟩
          rw [if_neg hcond, hactv]
          show a ∈ alistKeys (alistErase st.open_files tid)
          exact hmm
        · intro hfalse
          rw [hflag] at hfalse
          exact absurd hfalse (by simp)
        · intro _ h1
          obtain ⟨kv, hkv⟩ := List.length_eq_one.mp h1
          rw [hkv] at hkm ha
          simp [alistKeys] at hkm ha
          exact absurd (ha.trans hkm.symm) hat

/-- C6: the TabSet invariant — `active_tab_id`, when non-null, is a key
of the mapping — is preserved by `close_tab` (with either an explicit
id or the active-tab default); a failed close changes nothing; closing
the only tab nulls the active pointer; closing a tab while at least one
other remains leaves the active pointer non-null. -/
theorem claim_C6_active_pointer (st : TabbedTextArea) (rp : TabbedRightPanel)
    (tab_id? : Option String) (h : TabSetInv st) :
    TabSetInv (st.close_tab rp tab_id?).2.1 ∧
    ((st.close_tab rp tab_id?).1 = false → (st.close_tab rp tab_id?).2.1 = st) ∧
    ((st.close_tab rp tab_id?).1 = true → st.open_files.length = 1 →
      (st.close_tab rp tab_id?).2.1.content.active = none) ∧
    ((st.close_tab rp tab_id?).1 = true → 2 ≤ st.open_files.length →
      ((st.close_tab rp tab_id?).2.1.content.active).isSome = true) := by
  rcases tab_id? with _ | t
  · rcases hactv : st.content.active with _ | a
    · refine ⟨?_, ?_, ?_, ?_⟩
      · simp only [TabbedTextArea.close_tab, hactv]
        exact h
      · intro _
        simp only [TabbedTextArea.close_tab, hactv]
      · simp only [TabbedTextArea.close_tab, hactv]
        simp
      · simp only [TabbedTextArea.close_tab, hactv]
        simp
    · have heq : st.close_tab rp none = st.close_tab rp (some a) := by
        simp only [TabbedTextArea.close_tab, hactv]
      rw [heq]
      exact close_tab_core st rp a h
  · exact close_tab_core st rp t h

/-- C6 witness: in the two-tab editor (active `tab_1`), closing the
active tab by default promotes a neighbor (the pointer stays non-null
and a key); closing the only tab of the one-tab editor nulls it. -/
theorem claim_C6_witness :
    TabSetInv (stTwo.close_tab rpT none).2.1 ∧
    ((stTwo.close_tab rpT none).2.1.content.active).isSome = true ∧
    (stOne.close_tab rpT (some "tab_0")).2.1.content.active = none :=
  ⟨(claim_C6_active_pointer stTwo rpT none
      ⟨rfl, by decide, show "tab_1" ∈ alistKeys stTwo.open_files from by decide⟩).1,
   (claim_C6_active_pointer stTwo rpT none
      ⟨rfl, by decide, show "tab_1" ∈ alistKeys stTwo.open_files from by decide⟩).2.2.2
     (by decide) (by decide),
   (claim_C6_active_pointer stOne rpT (some "tab_0")
      ⟨rfl, by decide,
        show "tab_0" ∈ alistKeys stOne.open_files from by decide⟩).2.2.1
     (by decide) (by decide)⟩

end Syntia
